import Mathlib

/-!
Verification of the Omron tag-discovery core (`src/omron-ref`): the bounded
endian-aware (de)serialization primitive (`serialization.h`), the CIP request
path and array-size helpers (`omcon.cpp`), and the enumeration / catalog
pipeline (`list_signals.cpp`).  All machine integers are modelled as `Nat`
(bytes are `Nat`s semantically `< 256`); `size_t` arithmetic that can overflow
is reduced modulo `2 ^ 64` where it matters.
-/

namespace daq

/-! ## Little-endian byte encoding

`serialization.h` converts integral values with `to_endian` and then memcpys
the value's bytes.  For a little-endian target the net effect is: a `w`-byte
integer `v` is written as the `w` little-endian base-256 digits of `v`, and a
read of `w` bytes is interpreted the same way.  `toLEBytes`/`fromLEBytes`
capture exactly that byte-level meaning. -/

/-- The `w` little-endian bytes of `v` (the memory image, on a little-endian
serializer, of a `w`-byte integral holding `v`). -/
def toLEBytes : Nat → Nat → List Nat
  | 0, _ => []
  | w + 1, v => v % 256 :: toLEBytes w (v / 256)

/-- Reassemble a little-endian byte list into the integer it denotes. -/
def fromLEBytes : List Nat → Nat
  | [] => 0
  | b :: bs => b + 256 * fromLEBytes bs

theorem toLEBytes_length (w v : Nat) : (toLEBytes w v).length = w := by
  induction w generalizing v with
  | zero => rfl
  | succ w ih => simp [toLEBytes, ih]

theorem fromLEBytes_toLEBytes (w v : Nat) :
    fromLEBytes (toLEBytes w v) = v % 2 ^ (8 * w) := by
  induction w generalizing v with
  | zero => simp [toLEBytes, fromLEBytes, Nat.mod_one]
  | succ w ih =>
    have hpow : 2 ^ (8 * (w + 1)) = 256 * 2 ^ (8 * w) := by
      rw [Nat.mul_succ, pow_add]; ring
    rw [toLEBytes, fromLEBytes, ih, hpow, Nat.mod_mul]

/-! ## `ser::FixedBufferSerializer` (serialization.h, lines 84–162)

The buffer is modelled as the full byte region (`buffer`), with the write
cursor and the sticky error flag.  `can_write` mirrors the C++ private helper:
it is the only place the error flag is set. -/

structure FixedBufferSerializer where
  buffer : List Nat
  cursor : Nat
  has_error : Bool
  deriving Repr, DecidableEq

/-- `can_write(num)`: fails (without touching the flag) if the flag is set;
sets the flag and fails if `cursor + num > buffer.size()`. -/
def FixedBufferSerializer.can_write (s : FixedBufferSerializer) (num : Nat) :
    Bool × FixedBufferSerializer :=
  if s.has_error then (false, s)
  else if s.cursor + num > s.buffer.length then (false, { s with has_error := true })
  else (true, s)

/-- `write(src)`: bounds-check, then memcpy at the cursor and advance. -/
def FixedBufferSerializer.write (s : FixedBufferSerializer) (src : List Nat) :
    Bool × FixedBufferSerializer :=
  match s.can_write src.length with
  | (false, s') => (false, s')
  | (true, s') =>
    (true, { s' with
      buffer := s'.buffer.take s'.cursor ++ src ++ s'.buffer.drop (s'.cursor + src.length),
      cursor := s'.cursor + src.length })

/-- `advance(off)`: same bounds semantics as `write`, bytes left as they are. -/
def FixedBufferSerializer.advance (s : FixedBufferSerializer) (off : Nat) :
    Bool × FixedBufferSerializer :=
  match s.can_write off with
  | (false, s') => (false, s')
  | (true, s') => (true, { s' with cursor := s'.cursor + off })

/-- `get_remaining_bytes()`: `_buffer.size() - _cursor`. -/
def FixedBufferSerializer.get_remaining_bytes (s : FixedBufferSerializer) : Nat :=
  s.buffer.length - s.cursor

/-- `reset()`: cursor := 0, error := false. -/
def FixedBufferSerializer.reset (s : FixedBufferSerializer) : FixedBufferSerializer :=
  { s with cursor := 0, has_error := false }

/-- `serialized_buffer()`: the prefix `[0..cursor)`. -/
def FixedBufferSerializer.serialized_buffer (s : FixedBufferSerializer) : List Nat :=
  s.buffer.take s.cursor

/-- `ser::serialize(Serializer, integral)` for a `w`-byte value on a
little-endian serializer: `to_endian` plus the memcpy of `serialize_object`
amount to writing the `w` little-endian bytes of `v`. -/
def serializeUInt (s : FixedBufferSerializer) (w v : Nat) :
    Bool × FixedBufferSerializer :=
  s.write (toLEBytes w v)

/-- One serializer operation (a later `write` or `advance` call). -/
inductive SerOp where
  | wr (src : List Nat)
  | adv (n : Nat)
  deriving Repr, DecidableEq

def runOp (s : FixedBufferSerializer) : SerOp → Bool × FixedBufferSerializer
  | .wr src => s.write src
  | .adv n => s.advance n

def runOps (s : FixedBufferSerializer) : List SerOp → FixedBufferSerializer
  | [] => s
  | op :: ops => runOps (runOp s op).2 ops

theorem write_of_error {s : FixedBufferSerializer} (h : s.has_error = true)
    (src : List Nat) : s.write src = (false, s) := by
  simp [FixedBufferSerializer.write, FixedBufferSerializer.can_write, h]

theorem advance_of_error {s : FixedBufferSerializer} (h : s.has_error = true)
    (n : Nat) : s.advance n = (false, s) := by
  simp [FixedBufferSerializer.advance, FixedBufferSerializer.can_write, h]

theorem runOp_of_error {s : FixedBufferSerializer} (h : s.has_error = true)
    (op : SerOp) : runOp s op = (false, s) := by
  cases op with
  | wr src => exact write_of_error h src
  | adv n => exact advance_of_error h n

theorem runOps_of_error {s : FixedBufferSerializer} (h : s.has_error = true)
    (ops : List SerOp) : runOps s ops = s := by
  induction ops with
  | nil => rfl
  | cons op ops ih => rw [runOps, runOp_of_error h]; exact ih

/-! ## `ser::FixedBufferDeserializer` (serialization.h, lines 219–292) -/

structure FixedBufferDeserializer where
  buffer : List Nat
  cursor : Nat
  has_error : Bool
  deriving Repr, DecidableEq

/-- `can_read(num)`: fails if the flag is set; sets the flag and fails if
`_buffer.size() - _cursor < num`. -/
def FixedBufferDeserializer.can_read (d : FixedBufferDeserializer) (num : Nat) :
    Bool × FixedBufferDeserializer :=
  if d.has_error then (false, d)
  else if d.buffer.length - d.cursor < num then (false, { d with has_error := true })
  else (true, d)

/-- `read(dst)` for a destination of `num` bytes: on success the bytes
`[cursor, cursor+num)` (as `some`), on failure `none` (dst untouched). -/
def FixedBufferDeserializer.read (d : FixedBufferDeserializer) (num : Nat) :
    Option (List Nat) × FixedBufferDeserializer :=
  match d.can_read num with
  | (false, d') => (none, d')
  | (true, d') =>
    (some ((d'.buffer.drop d'.cursor).take num), { d' with cursor := d'.cursor + num })

/-- `advance(off)`: skip `off` bytes with the same bounds semantics. -/
def FixedBufferDeserializer.advance (d : FixedBufferDeserializer) (off : Nat) :
    Bool × FixedBufferDeserializer :=
  match d.can_read off with
  | (false, d') => (false, d')
  | (true, d') => (true, { d' with cursor := d'.cursor + off })

/-- `ser::read<T>` for a `w`-byte unsigned integral on a little-endian
deserializer: the value is zero-initialized, so a failed read yields `0`. -/
def readUInt (d : FixedBufferDeserializer) (w : Nat) :
    Nat × FixedBufferDeserializer :=
  match d.read w with
  | (some bs, d') => (fromLEBytes bs, d')
  | (none, d') => (0, d')

/-- `ser::read_string(des, len)`: the string is resized to `len` (zero-filled)
before the read, so a failed read yields `len` NUL bytes. -/
def read_string (d : FixedBufferDeserializer) (len : Nat) :
    List Nat × FixedBufferDeserializer :=
  match d.read len with
  | (some bs, d') => (bs, d')
  | (none, d') => (List.replicate len 0, d')

/-- The `for (uint8_t i = 0; i < num_dimensions; ++i) read<uint32_t>` loops of
`get_variable_info`: read `n` consecutive `w`-byte integers. -/
def readUInts (w : Nat) : Nat → FixedBufferDeserializer → List Nat × FixedBufferDeserializer
  | 0, d => ([], d)
  | n + 1, d =>
    let r := readUInt d w
    let rs := readUInts w n r.2
    (r.1 :: rs.1, rs.2)

theorem readUInts_length (w n : Nat) (d : FixedBufferDeserializer) :
    (readUInts w n d).1.length = n := by
  induction n generalizing d with
  | zero => rfl
  | succ n ih => simp [readUInts, ih]

/-! ## `DataType` and friends (omcon.cpp; enum declared in omron.h) -/

/-- Modelled from the spec: the `DataType` enum of `omron.h` (not in `src/`),
"a tagged scalar identifying one of: Undefined, Date, Time, DateAndTime,
TimeOfDay, Bool, Sint, Int, Dint, Lint, Usint, Uint, Udint, Ulint, Real,
Lreal, String, Byte, Word, Dword, Lword, Time2, AbbreviatedStructure,
Structure, Array"; the wire representation is a byte, and a `uint8_t` that
maps to no named variant stays a distinct enum value, modelled as
`Unknown b`. -/
inductive DataType where
  | Undefined
  | Date
  | Time
  | DateAndTime
  | TimeOfDay
  | Bool
  | Sint
  | Int
  | Dint
  | Lint
  | Usint
  | Uint
  | Udint
  | Ulint
  | Real
  | Lreal
  | String
  | Byte
  | Word
  | Dword
  | Lword
  | Time2
  | AbbreviatedStructure
  | Structure
  | Array
  | Unknown (b : Nat)
  deriving Repr, DecidableEq

/-- Lowercase hex digits of `n`, as emitted by fmt's `{:x}`. -/
def hexDigits (n : Nat) : String := String.mk (Nat.toDigits 16 n)

/-- `daq::to_string(DataType)` (omcon.cpp, lines 15–72): fixed spellings for
the named variants, `Unknown(<hex>)` for an unrecognized byte. -/
def to_string : DataType → String
  | .Undefined => "UNDEFINED"
  | .Date => "DATE"
  | .Time => "TIME"
  | .DateAndTime => "DATE_AND_TIME"
  | .TimeOfDay => "TIME_OF_DAY"
  | .Bool => "BOOL"
  | .Sint => "SINT"
  | .Int => "INT"
  | .Dint => "DINT"
  | .Lint => "LINT"
  | .Usint => "USINT"
  | .Uint => "UINT"
  | .Udint => "UDINT"
  | .Ulint => "ULINT"
  | .Real => "REAL"
  | .Lreal => "LREAL"
  | .String => "STRING"
  | .Byte => "BYTE"
  | .Word => "WORD"
  | .Dword => "DWORD"
  | .Lword => "LWORD"
  | .Time2 => "TIME2"
  | .AbbreviatedStructure => "ABBREVIATED_STRUCTURE"
  | .Structure => "STRUCTURE"
  | .Array => "ARRAY"
  | .Unknown b => "Unknown(" ++ hexDigits b ++ ")"

/-- `daq::is_valid_value(DataType)` (omcon.cpp, lines 74–106): the listed
cases (`Date` through `Array`) are valid; `Undefined` and any unrecognized
byte fall to the `default: return false` branch. -/
def is_valid_value : DataType → Bool
  | .Date => true
  | .Time => true
  | .DateAndTime => true
  | .TimeOfDay => true
  | .Bool => true
  | .Sint => true
  | .Int => true
  | .Dint => true
  | .Lint => true
  | .Usint => true
  | .Uint => true
  | .Udint => true
  | .Ulint => true
  | .Real => true
  | .Lreal => true
  | .String => true
  | .Byte => true
  | .Word => true
  | .Dword => true
  | .Lword => true
  | .Time2 => true
  | .AbbreviatedStructure => true
  | .Structure => true
  | .Array => true
  | _ => false

/-! ## `get_array_size` (omcon.cpp, lines 128–154)

`dim_product` is a `size_t`, so every multiplication is modulo `2 ^ 64`. -/

def get_array_size (dimensions : List Nat) (element_type : DataType)
    (element_size : Nat) : Nat :=
  let dim_product := dimensions.foldl (fun acc dim => acc * dim % 2 ^ 64) 1
  if element_type = DataType.Bool then
    let remainder := dim_product % 16
    let full_bytes := dim_product / 8
    if remainder ≥ 8 then full_bytes + 1
    else if remainder > 0 then full_bytes + 2
    else full_bytes
  else
    dim_product * element_size % 2 ^ 64

/-- When all dimensions are positive and their true product fits in a
`size_t`, the modular fold computes the true product: every intermediate
product divides the final one, hence also fits. -/
theorem foldl_mul_mod_eq_prod (dims : List Nat) (hpos : ∀ d ∈ dims, 0 < d)
    (hlt : dims.prod < 2 ^ 64) :
    dims.foldl (fun acc dim => acc * dim % 2 ^ 64) 1 = dims.prod := by
  suffices h : ∀ (ds : List Nat) (a : Nat), (∀ d ∈ ds, 0 < d) →
      a * ds.prod < 2 ^ 64 →
      ds.foldl (fun acc dim => acc * dim % 2 ^ 64) a = a * ds.prod by
    have := h dims 1 hpos (by simpa using hlt)
    simpa using this
  intro ds
  induction ds with
  | nil => intro a _ _; simp
  | cons d es ih =>
    intro a hall ha
    have hestail : ∀ x ∈ es, 0 < x := fun x hx => hall x (by simp [hx])
    have hpos_tail : 0 < es.prod := List.prod_pos hestail
    have ha' : a * d * es.prod < 2 ^ 64 := by
      rw [List.prod_cons, ← Nat.mul_assoc] at ha
      exact ha
    have had : a * d < 2 ^ 64 :=
      lt_of_le_of_lt (Nat.le_mul_of_pos_right _ hpos_tail) ha'
    simp only [List.foldl_cons, List.prod_cons]
    rw [Nat.mod_eq_of_lt had, ih (a * d) hestail ha', ← Nat.mul_assoc]

/-! ## `variable_request_path` (omcon.cpp, lines 156–171)

A `vector<uint8_t>` of size `2 + padded_length` is allocated (zero-filled),
then `0x91`, the length byte (`static_cast<uint8_t>(name.size())`), the raw
name bytes, and — for odd name lengths — one `0x00` byte are serialized into
it; the whole vector is returned. -/

def variable_request_path (name : List Nat) : List Nat :=
  let padded_length := name.length + name.length % 2
  let s0 : FixedBufferSerializer :=
    { buffer := List.replicate (2 + padded_length) 0, cursor := 0, has_error := false }
  let s1 := (s0.write [0x91]).2
  let s2 := (s1.write [name.length % 256]).2
  let s3 := (s2.write name).2
  let s4 := if name.length % 2 ≠ 0 then (s3.write [0x00]).2 else s3
  s4.buffer

/-- A successful in-bounds `write`, phrased on a buffer split at the cursor. -/
theorem write_split (pre rest src : List Nat) (hle : src.length ≤ rest.length) :
    FixedBufferSerializer.write
      { buffer := pre ++ rest, cursor := pre.length, has_error := false } src =
    (true,
      { buffer := pre ++ src ++ rest.drop src.length,
        cursor := pre.length + src.length, has_error := false }) := by
  have hcw : FixedBufferSerializer.can_write
      { buffer := pre ++ rest, cursor := pre.length, has_error := false } src.length =
      (true, { buffer := pre ++ rest, cursor := pre.length, has_error := false }) := by
    unfold FixedBufferSerializer.can_write
    rw [if_neg (by simp), if_neg (by dsimp only; rw [List.length_append]; omega)]
  unfold FixedBufferSerializer.write
  rw [hcw]
  have htake : (pre ++ rest).take pre.length = pre := List.take_left pre rest
  have hdrop : (pre ++ rest).drop (pre.length + src.length) = rest.drop src.length := by
    rw [List.drop_append_eq_append_drop]
    have h1 : pre.drop (pre.length + src.length) = [] :=
      List.drop_eq_nil_of_le (by omega)
    have h2 : pre.length + src.length - pre.length = src.length := by omega
    rw [h1, h2, List.nil_append]
  simp only [htake, hdrop, List.append_assoc]

/-- `write_split` restated so that the output state has the same
`⟨pre ++ rest, pre.length, false⟩` shape as the input, for chaining. -/
theorem write_run (pre rest src rest' : List Nat) (hle : src.length ≤ rest.length)
    (hrest : List.drop src.length rest = rest') :
    FixedBufferSerializer.write
      { buffer := pre ++ rest, cursor := pre.length, has_error := false } src =
    (true,
      { buffer := (pre ++ src) ++ rest', cursor := (pre ++ src).length,
        has_error := false }) := by
  rw [write_split pre rest src hle, ← hrest]
  simp [List.append_assoc]

/-- The byte sequence `variable_request_path` produces, for any name of
length 1..255: `0x91`, the length byte, the raw name, and one `0x00` pad
byte exactly when the length is odd. -/
theorem variable_request_path_eq (name : List Nat) (h1 : 1 ≤ name.length)
    (h255 : name.length ≤ 255) :
    variable_request_path name
      = [0x91, name.length] ++ name ++ (if name.length % 2 = 1 then [0x00] else []) := by
  have hmod : name.length % 256 = name.length := Nat.mod_eq_of_lt (by omega)
  rcases Nat.mod_two_eq_zero_or_one name.length with hpar | hpar
  · simp only [variable_request_path, hpar, Nat.add_zero, hmod]
    rw [if_neg (by decide : ¬ (0 : Nat) ≠ 0)]
    rw [show ({ buffer := List.replicate (2 + name.length) 0, cursor := 0,
                has_error := false } : FixedBufferSerializer)
        = { buffer := [] ++ List.replicate (2 + name.length) 0,
            cursor := ([] : List Nat).length, has_error := false } from rfl]
    rw [write_run [] (List.replicate (2 + name.length) 0) [0x91]
        (List.replicate (1 + name.length) 0)
        (by simp only [List.length_replicate]; show (1 : Nat) ≤ 2 + name.length; omega)
        (by rw [List.drop_replicate]; congr 1
            show 2 + name.length - 1 = 1 + name.length; omega)]
    dsimp only
    rw [write_run ([] ++ [0x91]) (List.replicate (1 + name.length) 0) [name.length]
        (List.replicate name.length 0)
        (by simp only [List.length_replicate]; show (1 : Nat) ≤ 1 + name.length; omega)
        (by rw [List.drop_replicate]; congr 1
            show 1 + name.length - 1 = name.length; omega)]
    dsimp only
    rw [write_run (([] ++ [0x91]) ++ [name.length]) (List.replicate name.length 0) name []
        (by simp only [List.length_replicate]; omega)
        (by rw [List.drop_replicate, Nat.sub_self]; rfl)]
    simp
  · simp only [variable_request_path, hpar, hmod]
    rw [if_pos (by decide : (1 : Nat) ≠ 0)]
    rw [show ({ buffer := List.replicate (2 + (name.length + 1)) 0, cursor := 0,
                has_error := false } : FixedBufferSerializer)
        = { buffer := [] ++ List.replicate (2 + (name.length + 1)) 0,
            cursor := ([] : List Nat).length, has_error := false } from rfl]
    rw [write_run [] (List.replicate (2 + (name.length + 1)) 0) [0x91]
        (List.replicate (2 + name.length) 0)
        (by simp only [List.length_replicate]
            show (1 : Nat) ≤ 2 + (name.length + 1); omega)
        (by rw [List.drop_replicate]; congr 1)]
    dsimp only
    rw [write_run ([] ++ [0x91]) (List.replicate (2 + name.length) 0) [name.length]
        (List.replicate (1 + name.length) 0)
        (by simp only [List.length_replicate]; show (1 : Nat) ≤ 2 + name.length; omega)
        (by rw [List.drop_replicate]; congr 1
            show 2 + name.length - 1 = 1 + name.length; omega)]
    dsimp only
    rw [write_run (([] ++ [0x91]) ++ [name.length]) (List.replicate (1 + name.length) 0) name
        [0x00]
        (by simp only [List.length_replicate]; omega)
        (by rw [List.drop_replicate,
          show 1 + name.length - name.length = 1 from by omega]; rfl)]
    dsimp only
    rw [write_run ((([] ++ [0x91]) ++ [name.length]) ++ name) [0x00] [0x00] []
        (by simp) rfl]
    simp

/-- Claim C1: for every non-empty dimension sequence `dims` with product `P`
(all dimensions positive, products in `size_t` range), `get_array_size`
returns `P / 8` when `P % 16 == 0`, `P / 8 + 1` when `8 ≤ P % 16 < 16`, and
`P / 8 + 2` when `0 < P % 16 < 8` for `Bool` elements, and `P * element_size`
for every non-`Bool` element type; in particular `dims = [17]` with `Bool`
elements gives `4`. -/
theorem c1_get_array_size (dims : List Nat) (element_type : DataType)
    (element_size : Nat) (hne : dims ≠ []) (hpos : ∀ d ∈ dims, 0 < d)
    (hP : dims.prod < 2 ^ 64) (hPe : dims.prod * element_size < 2 ^ 64) :
    (get_array_size dims DataType.Bool element_size =
      (if dims.prod % 16 = 0 then dims.prod / 8
       else if 8 ≤ dims.prod % 16 then dims.prod / 8 + 1
       else dims.prod / 8 + 2))
    ∧ (element_type ≠ DataType.Bool →
        get_array_size dims element_type element_size = dims.prod * element_size)
    ∧ (∀ es : Nat, get_array_size [17] DataType.Bool es = 4) := by
  refine ⟨?_, ?_, ?_⟩
  · simp only [get_array_size, foldl_mul_mod_eq_prod dims hpos hP, if_pos rfl]
    split_ifs <;> omega
  · intro hnb
    simp only [get_array_size, foldl_mul_mod_eq_prod dims hpos hP, if_neg hnb]
    exact Nat.mod_eq_of_lt hPe
  · intro es
    simp [get_array_size]

/-- Witness for C1 at `dims = [17]`, `element_type = Bool`, `element_size = 1`
(the S3 scenario of the spec), plus the non-Bool case at `[2, 3] × 4`. -/
theorem c1_get_array_size_witness :
    get_array_size [17] DataType.Bool 1 = 4 ∧
    get_array_size [2, 3] DataType.Dint 4 = 24 := by
  have h17 := c1_get_array_size [17] DataType.Bool 1 (by decide) (by decide)
    (by norm_num) (by norm_num)
  have h23 := c1_get_array_size [2, 3] DataType.Dint 4 (by decide) (by decide)
    (by norm_num) (by norm_num)
  exact ⟨h17.2.2 1, by rw [h23.2.1 (by decide)]; decide⟩

/-- Claim C6: for every name of length 1..255 bytes, `variable_request_path`
produces exactly `0x91`, the length byte, the raw name bytes, and a single
`0x00` pad byte iff the length is odd; the total path length is always even,
and even-length names get no trailing zero. -/
theorem c6_variable_request_path (name : List Nat) (h1 : 1 ≤ name.length)
    (h255 : name.length ≤ 255) :
    variable_request_path name
      = [0x91, name.length] ++ name ++ (if name.length % 2 = 1 then [0x00] else [])
    ∧ (variable_request_path name).length % 2 = 0
    ∧ (name.length % 2 = 0 → variable_request_path name = [0x91, name.length] ++ name) := by
  have hmain := variable_request_path_eq name h1 h255
  refine ⟨hmain, ?_, ?_⟩
  · rw [hmain]
    rcases Nat.mod_two_eq_zero_or_one name.length with hpar | hpar <;>
      simp [hpar, List.length_append] <;> omega
  · intro h0
    rw [hmain, if_neg (by omega)]
    simp

/-- Witness for C6 at the odd-length name `[0x41]` and the even-length name
`[0x41, 0x42]`. -/
theorem c6_variable_request_path_witness :
    variable_request_path [0x41] = [0x91, 1, 0x41, 0x00]
    ∧ variable_request_path [0x41, 0x42] = [0x91, 2, 0x41, 0x42] := by
  have hodd := c6_variable_request_path [0x41] (by decide) (by decide)
  have heven := c6_variable_request_path [0x41, 0x42] (by decide) (by decide)
  refine ⟨?_, ?_⟩
  · rw [hodd.1]; decide
  · rw [heven.2.2 (by decide)]; decide

/-- A `write` that does not fit sets the sticky flag and moves nothing. -/
theorem write_fail (s : FixedBufferSerializer) (src : List Nat)
    (herr : s.has_error = false)
    (hover : s.buffer.length < s.cursor + src.length) :
    s.write src = (false, { s with has_error := true }) := by
  unfold FixedBufferSerializer.write FixedBufferSerializer.can_write
  rw [if_neg (by simp [herr]), if_pos (by omega)]

/-- A fresh serializer state, re-expressed for `write_split`/`write_run`. -/
theorem fresh_state (buf : List Nat) :
    (⟨buf, 0, false⟩ : FixedBufferSerializer)
      = ⟨[] ++ buf, ([] : List Nat).length, false⟩ := rfl

/-- Evaluation of `readUInt` on a fresh little-endian deserializer. -/
theorem readUInt_fresh (buf : List Nat) (w : Nat) :
    readUInt ⟨buf, 0, false⟩ w
      = if buf.length < w
        then (0, ⟨buf, 0, true⟩)
        else (fromLEBytes (buf.take w), ⟨buf, w, false⟩) := by
  unfold readUInt FixedBufferDeserializer.read FixedBufferDeserializer.can_read
  by_cases h : buf.length < w
  · rw [if_pos h]
    simp only [Nat.sub_zero]
    rw [if_neg (by simp), if_pos h]
  · rw [if_neg h]
    simp only [Nat.sub_zero]
    rw [if_neg (by simp), if_neg h]
    simp [List.drop_zero]

/-- Claim C4: a write of `k` bytes with fewer than `k` bytes remaining fails,
sets the sticky error flag, and leaves the cursor unchanged; afterwards every
`write` or `advance` of any size fails and leaves the state unchanged (so the
cursor stays put and the flag stays set over any sequence of operations), and
only `reset()` clears the flag, setting the cursor to 0. -/
theorem c4_sticky_error (s : FixedBufferSerializer) (src : List Nat)
    (herr : s.has_error = false) (hcur : s.cursor ≤ s.buffer.length)
    (hover : s.get_remaining_bytes < src.length) :
    (s.write src).1 = false
    ∧ (s.write src).2.has_error = true
    ∧ (s.write src).2.cursor = s.cursor
    ∧ (∀ op, runOp (s.write src).2 op = (false, (s.write src).2))
    ∧ (∀ ops, runOps (s.write src).2 ops = (s.write src).2)
    ∧ (s.write src).2.reset.cursor = 0
    ∧ (s.write src).2.reset.has_error = false := by
  have hfail : s.write src = (false, { s with has_error := true }) :=
    write_fail s src herr
      (by unfold FixedBufferSerializer.get_remaining_bytes at hover; omega)
  rw [hfail]
  refine ⟨rfl, rfl, rfl, ?_, ?_, rfl, rfl⟩
  · intro op; exact runOp_of_error rfl op
  · intro ops; exact runOps_of_error rfl ops

/-- Witness for C4: a two-byte buffer, a three-byte write, then a later
one-byte write that also fails without moving the cursor. -/
theorem c4_sticky_error_witness :
    ((⟨[0, 0], 0, false⟩ : FixedBufferSerializer).write [1, 2, 3]).1 = false
    ∧ ((⟨[0, 0], 0, false⟩ : FixedBufferSerializer).write [1, 2, 3]).2.cursor = 0
    ∧ runOp ((⟨[0, 0], 0, false⟩ : FixedBufferSerializer).write [1, 2, 3]).2 (SerOp.wr [7])
        = (false, ((⟨[0, 0], 0, false⟩ : FixedBufferSerializer).write [1, 2, 3]).2) := by
  have h := c4_sticky_error ⟨[0, 0], 0, false⟩ [1, 2, 3] rfl (by decide) (by decide)
  exact ⟨h.1, h.2.2.1, h.2.2.2.1 (SerOp.wr [7])⟩

/-- Claim C5: a `w`-byte little-endian value round-trips through
serialization and deserialization (`w ∈ {1,2,4,8}`), and on each side the
error flag stays clear iff the respective buffer holds at least `w` bytes. -/
theorem c5_roundtrip (w v cap : Nat) (hw : w = 1 ∨ w = 2 ∨ w = 4 ∨ w = 8)
    (hv : v < 2 ^ (8 * w)) :
    ((serializeUInt ⟨List.replicate cap 0, 0, false⟩ w v).2.has_error = false ↔ w ≤ cap)
    ∧ (∀ buf : List Nat,
        ((readUInt ⟨buf, 0, false⟩ w).2.has_error = false ↔ w ≤ buf.length))
    ∧ (w ≤ cap →
        (serializeUInt ⟨List.replicate cap 0, 0, false⟩ w v).1 = true
        ∧ (serializeUInt ⟨List.replicate cap 0, 0, false⟩ w v).2.serialized_buffer
            = toLEBytes w v
        ∧ (readUInt ⟨(serializeUInt ⟨List.replicate cap 0, 0, false⟩ w v).2.serialized_buffer,
              0, false⟩ w).1 = v
        ∧ (readUInt ⟨(serializeUInt ⟨List.replicate cap 0, 0, false⟩ w v).2.serialized_buffer,
              0, false⟩ w).2.has_error = false) := by
  have hlen := toLEBytes_length w v
  by_cases hcap : w ≤ cap
  · have hser : serializeUInt ⟨List.replicate cap 0, 0, false⟩ w v
        = (true, ⟨([] ++ toLEBytes w v) ++ List.replicate (cap - w) 0,
            ([] ++ toLEBytes w v).length, false⟩) := by
      unfold serializeUInt
      rw [fresh_state,
        write_run [] (List.replicate cap 0) (toLEBytes w v) (List.replicate (cap - w) 0)
          (by rw [hlen, List.length_replicate]; omega)
          (by rw [hlen, List.drop_replicate])]
    have hbuf : (serializeUInt ⟨List.replicate cap 0, 0, false⟩ w v).2.serialized_buffer
        = toLEBytes w v := by
      rw [hser]
      unfold FixedBufferSerializer.serialized_buffer
      simp [List.take_left]
    refine ⟨?_, ?_, fun _ => ⟨by rw [hser], hbuf, ?_, ?_⟩⟩
    · rw [hser]; simpa using hcap
    · intro buf
      rw [readUInt_fresh]
      by_cases hb : buf.length < w
      · rw [if_pos hb]; simpa using by omega
      · rw [if_neg hb]; simpa using by omega
    · rw [hbuf, readUInt_fresh, if_neg (by omega)]
      simp only [List.take_of_length_le (le_of_eq hlen)]
      rw [fromLEBytes_toLEBytes, Nat.mod_eq_of_lt hv]
    · rw [hbuf, readUInt_fresh, if_neg (by omega)]
  · have hser : serializeUInt ⟨List.replicate cap 0, 0, false⟩ w v
        = (false, ⟨List.replicate cap 0, 0, true⟩) := by
      unfold serializeUInt
      exact write_fail _ _ rfl (by simp [hlen]; omega)
    refine ⟨?_, ?_, fun hle => absurd hle hcap⟩
    · rw [hser]; simpa using hcap
    · intro buf
      rw [readUInt_fresh]
      by_cases hb : buf.length < w
      · rw [if_pos hb]; simpa using by omega
      · rw [if_neg hb]; simpa using by omega

/-- Witness for C5 at `w = 4`, `v = 0x12345678`, `cap = 8`: the four
serialized bytes come back as the same value with both flags clear. -/
theorem c5_roundtrip_witness :
    (serializeUInt ⟨List.replicate 8 0, 0, false⟩ 4 0x12345678).2.serialized_buffer
      = [0x78, 0x56, 0x34, 0x12]
    ∧ (readUInt ⟨(serializeUInt ⟨List.replicate 8 0, 0, false⟩ 4
          0x12345678).2.serialized_buffer, 0, false⟩ 4).1 = 0x12345678 := by
  have h := c5_roundtrip 4 0x12345678 8 (by omega) (by norm_num)
  have h4 := h.2.2 (by omega)
  exact ⟨by rw [h4.2.1]; rfl, h4.2.2.1⟩

/-! ## Deserializer evaluation lemmas (reads at a known cursor) -/

/-- A `read` whose span lies inside the buffer returns exactly that span. -/
theorem read_at {d : FixedBufferDeserializer} (pre mid rest : List Nat)
    (hbuf : d.buffer = pre ++ mid ++ rest) (hcur : d.cursor = pre.length)
    (herr : d.has_error = false) :
    d.read mid.length = (some mid, { d with cursor := d.cursor + mid.length }) := by
  have hv : List.take mid.length (List.drop d.cursor d.buffer) = mid := by
    rw [hbuf, hcur, List.append_assoc, List.drop_left, List.take_left]
  unfold FixedBufferDeserializer.read FixedBufferDeserializer.can_read
  rw [if_neg (by simp [herr]),
    if_neg (by rw [hbuf, hcur]; simp only [List.length_append]; omega)]
  dsimp only
  rw [hv]

/-- `ser::read<T>` of a `w`-byte little-endian integer whose encoding sits at
the cursor. -/
theorem readUInt_at {d : FixedBufferDeserializer} (pre rest : List Nat) (w v : Nat)
    (hbuf : d.buffer = pre ++ toLEBytes w v ++ rest) (hcur : d.cursor = pre.length)
    (herr : d.has_error = false) (hv : v < 2 ^ (8 * w)) :
    readUInt d w = (v, { d with cursor := d.cursor + w }) := by
  unfold readUInt
  have h := read_at pre (toLEBytes w v) rest hbuf hcur herr
  rw [toLEBytes_length] at h
  rw [h]
  dsimp only
  rw [fromLEBytes_toLEBytes, Nat.mod_eq_of_lt hv]

/-- `ser::read_string` of `len` bytes sitting at the cursor. -/
theorem read_string_at {d : FixedBufferDeserializer} (pre mid rest : List Nat) (len : Nat)
    (hbuf : d.buffer = pre ++ mid ++ rest) (hcur : d.cursor = pre.length)
    (herr : d.has_error = false) (hlen : mid.length = len) :
    read_string d len = (mid, { d with cursor := d.cursor + len }) := by
  unfold read_string
  have h := read_at pre mid rest hbuf hcur herr
  rw [hlen] at h
  rw [h]

/-- An in-bounds `advance` just moves the cursor. -/
theorem advance_at {d : FixedBufferDeserializer} (off : Nat)
    (herr : d.has_error = false) (hle : d.cursor + off ≤ d.buffer.length) :
    d.advance off = (true, { d with cursor := d.cursor + off }) := by
  unfold FixedBufferDeserializer.advance FixedBufferDeserializer.can_read
  rw [if_neg (by simp [herr]), if_neg (by omega)]

/-! ## `decode_instance_data` (list_signals.cpp, lines 101–116) -/

structure InstanceData where
  id : Nat
  name : List Nat
  deriving Repr, DecidableEq

/-- One `InstanceData` record: `id: u32`, `entry_len: u16`, 2 skipped class
bytes, 4 skipped instance-id bytes, `name_len: u8`, the name, then — only
when `entry_len > 2 + 4 + 1 + name_len` — the trailing padding skip. -/
def decode_instance_data (d : FixedBufferDeserializer) :
    InstanceData × FixedBufferDeserializer :=
  let r1 := readUInt d 4
  let r2 := readUInt r1.2 2
  let instance_data_len := r2.1
  let r3 := r2.2.advance 2
  let r4 := r3.2.advance 4
  let r5 := readUInt r4.2 1
  let name_len := r5.1
  let r6 := read_string r5.2 name_len
  let d6 := if instance_data_len > 2 + 4 + 1 + name_len
    then (r6.2.advance (instance_data_len - 2 - 4 - 1 - name_len)).2
    else r6.2
  ({ id := r1.1, name := r6.1 }, d6)

/-- Counterexample to claim C3: the 13-byte record `id=1`, `entry_len=0`,
`name_len=0` has `entry_len < 2 + 4 + 1 + name_len`, yet `decode_instance_data`
returns it with the error flag still clear — the record is silently accepted,
no decode error is raised (`get_variables_fast` only throws when the
deserializer error flag is set, list_signals.cpp lines 144–148). -/
theorem c3_short_entry_counterexample :
    (decode_instance_data
      ⟨[1, 0, 0, 0, 0, 0, 0, 0, 0, 0, 0, 0, 0], 0, false⟩).2.has_error = false
    ∧ (decode_instance_data
      ⟨[1, 0, 0, 0, 0, 0, 0, 0, 0, 0, 0, 0, 0], 0, false⟩).1
        = { id := 1, name := [] } := by decide

/-- Claim C3 (amended): when `entry_len < 2 + 4 + 1 + name_len`, the guard
`entry_len > 2 + 4 + 1 + name_len` is false, so no trailing padding is
skipped and the record is returned with the error flag clear (no decode
error): the negative padding count is treated as zero padding, not as an
error. -/
theorem c3_short_entry_accepted (id entry_len name_len : Nat)
    (c2 i4 name suffix : List Nat)
    (hid : id < 2 ^ (8 * 4)) (hel : entry_len < 2 ^ (8 * 2))
    (hnl : name_len < 2 ^ (8 * 1))
    (hc2 : c2.length = 2) (hi4 : i4.length = 4) (hname : name.length = name_len)
    (hshort : entry_len < 2 + 4 + 1 + name_len) :
    (decode_instance_data ⟨toLEBytes 4 id ++ toLEBytes 2 entry_len ++ c2 ++ i4
        ++ toLEBytes 1 name_len ++ name ++ suffix, 0, false⟩).1
      = { id := id, name := name }
    ∧ (decode_instance_data ⟨toLEBytes 4 id ++ toLEBytes 2 entry_len ++ c2 ++ i4
        ++ toLEBytes 1 name_len ++ name ++ suffix, 0, false⟩).2.has_error = false
    ∧ (decode_instance_data ⟨toLEBytes 4 id ++ toLEBytes 2 entry_len ++ c2 ++ i4
        ++ toLEBytes 1 name_len ++ name ++ suffix, 0, false⟩).2.cursor
      = 13 + name_len := by
  have hlen4 : (toLEBytes 4 id).length = 4 := toLEBytes_length 4 id
  have hlen2 : (toLEBytes 2 entry_len).length = 2 := toLEBytes_length 2 entry_len
  have hlen1 : (toLEBytes 1 name_len).length = 1 := toLEBytes_length 1 name_len
  simp only [decode_instance_data]
  rw [readUInt_at []
      (toLEBytes 2 entry_len ++ c2 ++ i4 ++ toLEBytes 1 name_len ++ name ++ suffix)
      4 id (by simp [List.append_assoc]) rfl rfl hid]
  dsimp only
  rw [readUInt_at (toLEBytes 4 id)
      (c2 ++ i4 ++ toLEBytes 1 name_len ++ name ++ suffix)
      2 entry_len (by simp [List.append_assoc]) (by simp [hlen4]) rfl hel]
  dsimp only
  rw [advance_at 2 rfl
      (by simp only [List.length_append, hlen4, hlen2, hlen1, hc2, hi4]; omega)]
  dsimp only
  rw [advance_at 4 rfl
      (by simp only [List.length_append, hlen4, hlen2, hlen1, hc2, hi4]; omega)]
  dsimp only
  rw [readUInt_at (toLEBytes 4 id ++ toLEBytes 2 entry_len ++ c2 ++ i4)
      (name ++ suffix) 1 name_len (by simp [List.append_assoc])
      (by simp [List.length_append, hlen4, hlen2, hc2, hi4]) rfl hnl]
  dsimp only
  rw [read_string_at
      (toLEBytes 4 id ++ toLEBytes 2 entry_len ++ c2 ++ i4 ++ toLEBytes 1 name_len)
      name suffix name_len (by simp [List.append_assoc])
      (by simp [List.length_append, hlen4, hlen2, hlen1, hc2, hi4]) rfl hname]
  dsimp only
  rw [if_neg (by omega)]
  refine ⟨rfl, rfl, ?_⟩
  dsimp only

/-- Witness for the amended C3 at the concrete record `id=1`, `entry_len=0`,
`name_len=0` of the counterexample. -/
theorem c3_short_entry_accepted_witness :
    (decode_instance_data ⟨toLEBytes 4 1 ++ toLEBytes 2 0 ++ [0, 0] ++ [0, 0, 0, 0]
        ++ toLEBytes 1 0 ++ [] ++ [], 0, false⟩).1 = { id := 1, name := [] }
    ∧ (decode_instance_data ⟨toLEBytes 4 1 ++ toLEBytes 2 0 ++ [0, 0] ++ [0, 0, 0, 0]
        ++ toLEBytes 1 0 ++ [] ++ [], 0, false⟩).2.has_error = false := by
  have h := c3_short_entry_accepted 1 0 0 [0, 0] [0, 0, 0, 0] [] []
    (by norm_num) (by norm_num) (by norm_num) rfl rfl rfl (by omega)
  exact ⟨h.1, h.2.1⟩

/-! ## `get_variable_info` (omcon.cpp, lines 178–230)

The response payload decode.  The `static_cast<DataType>(byte)` conversion
uses the enum's underlying values, which live in `omron.h` (not in `src/`);
the decode is therefore parametrized by an arbitrary byte-to-`DataType`
mapping `ofByte`, which is all the invariants need. -/

structure ArrayInfo where
  element_type : DataType
  element_size : Nat
  dimensions : List Nat
  start_indices : List Nat
  deriving Repr, DecidableEq

structure VariableInfo where
  name : List Nat
  data_type : DataType
  size : Nat
  array_info : Option ArrayInfo
  deriving Repr, DecidableEq

/-- The decode of one Get_Attribute_All response payload into a
`VariableInfo` (`none` models the `throw` on a set deserializer error flag).
Warnings for unrecognized type bytes do not stop the decode. -/
def get_variable_info (ofByte : Nat → DataType) (name : List Nat)
    (payload : List Nat) : Option VariableInfo :=
  let d : FixedBufferDeserializer := ⟨payload, 0, false⟩
  let r1 := readUInt d 4
  let r2 := readUInt r1.2 1
  let data_type := ofByte r2.1
  let vr : VariableInfo × FixedBufferDeserializer :=
    if data_type = DataType.Array then
      let r3 := readUInt r2.2 1
      let element_type := ofByte r3.1
      let r4 := readUInt r3.2 1
      let r5 := r4.2.advance 1
      let r6 := readUInts 4 r4.1 r5.2
      let r7 := r6.2.advance 8
      let r8 := readUInt r7.2 1
      let r9 := r8.2.advance 3
      let r10 := readUInt r9.2 4
      let r11 := readUInts 4 r4.1 r10.2
      let arr : ArrayInfo := { element_type := element_type, element_size := r1.1,
                               dimensions := r6.1, start_indices := r11.1 }
      ({ name := name, data_type := data_type,
         size := get_array_size r6.1 element_type r1.1,
         array_info := some arr }, r11.2)
    else
      ({ name := name, data_type := data_type, size := r1.1, array_info := none }, r2.2)
  if vr.2.has_error then none else some vr.1

/-- Claim C9: every `VariableInfo` that `get_variable_info` returns has
`array_info` present iff `data_type == Array`; when present, dimensions and
start indices have equal length and `size` is the computed
`get_array_size(dimensions, element_type, element_size)` rather than the
per-element size read from the wire. -/
theorem c9_variable_info_invariants (ofByte : Nat → DataType)
    (name payload : List Nat) (var : VariableInfo)
    (h : get_variable_info ofByte name payload = some var) :
    (var.array_info.isSome ↔ var.data_type = DataType.Array)
    ∧ (∀ ai, var.array_info = some ai →
        ai.dimensions.length = ai.start_indices.length
        ∧ var.size = get_array_size ai.dimensions ai.element_type ai.element_size) := by
  simp only [get_variable_info] at h
  by_cases hc : ofByte (readUInt (readUInt ⟨payload, 0, false⟩ 4).2 1).1 = DataType.Array
  · rw [if_pos hc] at h
    split at h
    · exact absurd h (by simp)
    · obtain rfl := Option.some.inj h
      refine ⟨by simp [hc], ?_⟩
      intro ai hai
      obtain rfl := Option.some.inj hai
      exact ⟨by simp [readUInts_length], rfl⟩
  · rw [if_neg hc] at h
    split at h
    · exact absurd h (by simp)
    · obtain rfl := Option.some.inj h
      refine ⟨by simp [hc], ?_⟩
      intro ai hai
      exact absurd hai (by simp)

/-- A sample byte-to-`DataType` mapping for exercising the decoder (the real
mapping lives in `omron.h`; only the shape matters for the invariants). -/
def ofByteSample (b : Nat) : DataType :=
  if b = 0xA3 then DataType.Array
  else if b = 0xC1 then DataType.Bool
  else DataType.Unknown b

/-- The S3 payload: `size=1, data_type=Array, element_type=Bool,
num_dimensions=1, dims=[17], start=[0]` with the opaque skipped bytes
zeroed. -/
def payloadSample : List Nat :=
  [1, 0, 0, 0, 0xA3, 0xC1, 1, 0, 17, 0, 0, 0,
   0, 0, 0, 0, 0, 0, 0, 0, 0, 0, 0, 0, 0, 0, 0, 0, 0, 0, 0, 0]

/-- Witness for C9 at the S3 payload: the decode succeeds, the result is an
`Array` variable with matching dimension/start lengths, and its size is the
computed array byte size 4, not the element size 1 from the wire. -/
theorem c9_variable_info_invariants_witness :
    get_variable_info ofByteSample [0x41] payloadSample
      = some { name := [0x41], data_type := DataType.Array, size := 4,
               array_info := some { element_type := DataType.Bool, element_size := 1,
                                    dimensions := [17], start_indices := [0] } }
    ∧ (4 : Nat) = get_array_size [17] DataType.Bool 1 := by
  have hdec : get_variable_info ofByteSample [0x41] payloadSample
      = some { name := [0x41], data_type := DataType.Array, size := 4,
               array_info := some { element_type := DataType.Bool, element_size := 1,
                                    dimensions := [17], start_indices := [0] } } := by
    decide
  have h := c9_variable_info_invariants ofByteSample [0x41] payloadSample _ hdec
  have h2 := h.2 { element_type := DataType.Bool, element_size := 1,
                   dimensions := [17], start_indices := [0] } rfl
  exact ⟨hdec, h2.2⟩

/-! ## Catalog builder (list_signals.cpp, lines 169–226) -/

/-- `include_signal_data_type_in_list` (lines 169–184). -/
def include_signal_data_type_in_list (data_type : DataType) : Bool :=
  if !is_valid_value data_type then false
  else if data_type = DataType.Structure then false
  else if data_type = DataType.AbbreviatedStructure then false
  else true

structure SignalRecord where
  name : List Nat
  type : String
  arrayDimensions : Option (List (Nat × Nat))
  deriving Repr, DecidableEq

/-- The body of the `for` loop of `list_signals` (lines 193–222) for one
resolved variable: the emitted record, or `none` when a `continue` fires.
The dimension pairs are `{start_indices[i], start_indices[i] + dimensions[i]}`
for `i` below `dimensions.size()`; the source asserts the two sequences have
equal length, so `zipWith` matches the loop. -/
def emitRecord (var : VariableInfo) : Option SignalRecord :=
  if !include_signal_data_type_in_list var.data_type then none
  else
    match var.array_info with
    | none =>
      some { name := var.name, type := to_string var.data_type, arrayDimensions := none }
    | some array_info =>
      if !include_signal_data_type_in_list array_info.element_type then none
      else
        some { name := var.name, type := to_string array_info.element_type,
               arrayDimensions := some (List.zipWith (fun s len => (s, s + len))
                 array_info.start_indices array_info.dimensions) }

/-- The whole filter/projection pass of `list_signals` over the resolved
variables. -/
def list_signals_catalog (vars : List VariableInfo) : List SignalRecord :=
  vars.filterMap emitRecord

/-- Claim C10: `is_valid_value` returns false for `Undefined` (it is outside
the accepted case list), `include_signal_data_type_in_list` rejects it
exactly as it rejects an unrecognized byte even though `Undefined` has the
fixed spelling `"UNDEFINED"`, and `list_signals` never emits a variable whose
`data_type` — or, for an array, whose `element_type` — is `Undefined`. -/
theorem c10_undefined_never_emitted :
    is_valid_value DataType.Undefined = false
    ∧ (∀ b, is_valid_value (DataType.Unknown b) = false)
    ∧ include_signal_data_type_in_list DataType.Undefined = false
    ∧ (∀ b, include_signal_data_type_in_list DataType.Undefined
        = include_signal_data_type_in_list (DataType.Unknown b))
    ∧ to_string DataType.Undefined = "UNDEFINED"
    ∧ (∀ var, (var.data_type = DataType.Undefined
        ∨ ∃ ai, var.array_info = some ai ∧ ai.element_type = DataType.Undefined) →
        emitRecord var = none) := by
  refine ⟨rfl, fun b => rfl, rfl, fun b => rfl, rfl, ?_⟩
  intro var hvar
  rcases hvar with hdt | ⟨ai, hai, het⟩
  · simp [emitRecord, hdt, include_signal_data_type_in_list, is_valid_value]
  · simp only [emitRecord, hai, het]
    split
    · rfl
    · rw [if_pos (by decide)]

/-- Witness for C10: a scalar `Undefined` variable and a `Bool`-typed
array of `Undefined` elements are both dropped. -/
theorem c10_undefined_never_emitted_witness :
    emitRecord { name := [0x41], data_type := DataType.Undefined, size := 0,
                 array_info := none } = none
    ∧ emitRecord { name := [0x42], data_type := DataType.Array, size := 4,
                   array_info := some { element_type := DataType.Undefined
                                        element_size := 1
                                        dimensions := [17]
                                        start_indices := [0] } }
        = none := by
  refine ⟨?_, ?_⟩
  · exact c10_undefined_never_emitted.2.2.2.2.2 _ (Or.inl rfl)
  · exact c10_undefined_never_emitted.2.2.2.2.2 _ (Or.inr ⟨_, rfl, rfl⟩)

/-! ## Pagination loop of `get_variables_fast` (list_signals.cpp, lines 125–153)

The transport is modelled as the successive Get_All_Instances response pages
(each a decoded instance list).  One loop iteration sends the current
`next_instance_id` (recorded in the first component), consumes one page,
breaks on `num_instances == 0`, and otherwise appends every name and sets
`next_instance_id := instance.id + 1` per instance — i.e. to the last id + 1
for the page. -/
def paginate : Nat → List (List InstanceData) → List Nat × List (List Nat)
  | next, [] => ([next], [])
  | next, page :: rest =>
    if page.isEmpty then ([next], [])
    else
      let next2 := page.foldl (fun _ inst => inst.id + 1) next
      let r := paginate next2 rest
      (next :: r.1, page.map (fun inst => inst.name) ++ r.2)

/-- Step 2 of `get_variables_fast`: the two passes, `System` then `User`,
each starting from `next_instance_id = 1`. -/
def collectNames (systemPages userPages : List (List InstanceData)) :
    List Nat × List (List Nat) :=
  let rs := paginate 1 systemPages
  let ru := paginate 1 userPages
  (rs.1 ++ ru.1, rs.2 ++ ru.2)

/-- Claim C8: each tag-type pass starts at `next_instance_id = 1`; a page
with instances appends its names and continues from the last decoded id plus
one; the loop stops exactly at a `num_instances == 0` page; and the S6 User
pass (ids 1,2,5 then 6,9 then empty) sends cursors 1, 6, 10 and accumulates
five names. -/
theorem c8_pagination :
    (∀ (next : Nat) (rest : List (List InstanceData)),
        paginate next ([] :: rest) = ([next], []))
    ∧ (∀ (next : Nat) (l : List InstanceData) (a : InstanceData)
          (rest : List (List InstanceData)),
        paginate next ((l ++ [a]) :: rest)
          = (next :: (paginate (a.id + 1) rest).1,
             (l ++ [a]).map (fun inst => inst.name) ++ (paginate (a.id + 1) rest).2))
    ∧ (∀ sp up, collectNames sp up
        = ((paginate 1 sp).1 ++ (paginate 1 up).1,
           (paginate 1 sp).2 ++ (paginate 1 up).2))
    ∧ paginate 1 [[⟨1, [1]⟩, ⟨2, [2]⟩, ⟨5, [5]⟩], [⟨6, [6]⟩, ⟨9, [9]⟩], []]
        = ([1, 6, 10], [[1], [2], [5], [6], [9]]) := by
  refine ⟨?_, ?_, fun sp up => rfl, by decide⟩
  · intro next rest
    simp [paginate]
  · intro next l a rest
    rw [paginate]
    rw [if_neg (by simp)]
    simp [List.foldl_append]

/-! ## Step 3 of `get_variables_fast` (list_signals.cpp, lines 155–165)

`for (size_t i = 0; i < num; ++i) vars.push_back(get_variable_info(rc,
std::move(names[i])))`: the loop visits `i = 0 .. num-1` unconditionally and
indexes `names` with `std::vector::operator[]`, which is undefined behavior
once `i ≥ names.size()`.  `resolveFrom names i k` yields the names handed to
`get_variable_info` from index `i` for `k` iterations, with `none` modelling
the out-of-bounds access. -/
def resolveFrom (names : List (List Nat)) : Nat → Nat → Option (List (List Nat))
  | _, 0 => some []
  | i, k + 1 =>
    match names[i]? with
    | none => none
    | some x =>
      match resolveFrom names (i + 1) k with
      | none => none
      | some xs => some (x :: xs)

/-- The whole step-3 loop: indices `0 .. num-1`. -/
def resolveNames (names : List (List Nat)) (num : Nat) : Option (List (List Nat)) :=
  resolveFrom names 0 num

/-- Steps 1–3 of `get_variables_fast`, given the count `num` from
`get_num_variables` and the two response-page streams: the warning flag
(`names.size() > num`) and the ordered names handed to the resolver. -/
def get_variables_fast (num : Nat) (systemPages userPages : List (List InstanceData)) :
    Bool × Option (List (List Nat)) :=
  let names := (collectNames systemPages userPages).2
  (decide (names.length > num), resolveNames names num)

theorem resolveFrom_ok (names : List (List Nat)) :
    ∀ (k i : Nat), i + k ≤ names.length →
      resolveFrom names i k = some ((names.drop i).take k) := by
  intro k
  induction k with
  | zero => intro i _; simp [resolveFrom]
  | succ k ih =>
    intro i hik
    have hi : i < names.length := by omega
    rw [resolveFrom]
    rw [List.getElem?_eq_getElem hi, ih (i + 1) (by omega)]
    rw [List.drop_eq_getElem_cons hi, List.take_succ_cons]

theorem resolveFrom_oob (names : List (List Nat)) :
    ∀ (k i : Nat), 1 ≤ k → names.length < i + k →
      resolveFrom names i k = none := by
  intro k
  induction k with
  | zero => intro i h _; omega
  | succ k ih =>
    intro i _ hik
    rw [resolveFrom]
    by_cases hi : i < names.length
    · rw [List.getElem?_eq_getElem hi, ih (i + 1) (by omega) (by omega)]
    · rw [List.getElem?_eq_none (by omega)]

/-- Counterexample to claim C2 as stated: the step-3 loop runs `i` over
`0..N`, not `0..min(N, |names|)`.  With `N = 2` and a single collected name
(System pass empty, User pass yields one instance then an empty page), the
iteration `i = 1` indexes `names[1]` with `|names| = 1` — an out-of-bounds
`std::vector::operator[]` access (undefined behavior, modelled as `none`) —
so the names list IS accessed at an index `≥ |names|`. -/
theorem c2_resolution_counterexample :
    (get_variables_fast 2 [[]] [[{ id := 1, name := [0x61] }], []]).2 = none
    ∧ (collectNames [[]] [[{ id := 1, name := [0x61] }], []]).2.length = 1 := by
  decide

/-- Claim C2 (amended): the resolver is invoked for `i in 0..N` in order;
when at least `N` names were collected the output is exactly the first `N`
names — system names followed by user names, truncated to `N` — and a
warning is logged iff `|names| > N`; but when fewer than `N` names were
collected the loop still runs to `N` and reads the names vector out of
bounds (undefined behavior) instead of stopping at `|names|`. -/
theorem c2_resolution (num : Nat) (names : List (List Nat))
    (sp up : List (List InstanceData)) :
    (num ≤ names.length →
      resolveNames names num = some (names.take num)
      ∧ (names.take num).length = num)
    ∧ (names.length < num → resolveNames names num = none)
    ∧ (get_variables_fast num sp up
        = (decide (((paginate 1 sp).2 ++ (paginate 1 up).2).length > num),
           resolveNames ((paginate 1 sp).2 ++ (paginate 1 up).2) num)) := by
  refine ⟨?_, ?_, rfl⟩
  · intro hle
    constructor
    · unfold resolveNames
      rw [resolveFrom_ok names num 0 (by omega)]
      simp
    · simp only [List.length_take]
      omega
  · intro hlt
    unfold resolveNames
    exact resolveFrom_oob names num 0 (by omega) (by omega)

/-- Witness for the amended C2: `N = 2` with three collected names resolves
to the first two in order and raises the too-many-names warning. -/
theorem c2_resolution_witness :
    resolveNames [[1], [2], [3]] 2 = some [[1], [2]]
    ∧ resolveNames [[1]] 2 = none
    ∧ get_variables_fast 2 [[]] [[{ id := 1, name := [0x61] }], []]
        = (false, none) := by
  have h3 := c2_resolution 2 [[1], [2], [3]] [[]] [[{ id := 1, name := [0x61] }], []]
  have h1 := c2_resolution 2 [[1]] [[]] [[{ id := 1, name := [0x61] }], []]
  refine ⟨?_, h1.2.1 (by decide), ?_⟩
  · have := (h3.1 (by decide)).1
    simpa using this
  · rw [h1.2.2]
    decide

/-! ## CIP status tables and the error message of `RequestContext::request`
(omcon.cpp, lines 243–345 and 395–438) -/

/-- `general_status_message` (omcon.cpp, lines 243–278). -/
def general_status_message (status : Nat) : String :=
  match status with
  | 0x00 => "Success"
  | 0x01 => "Connection Failure"
  | 0x02 => "Resource Unavailable"
  | 0x03 => "Invalid Parameter Value"
  | 0x04 => "Path Segment Error"
  | 0x05 => "Path Destination Error"
  | 0x07 => "Connection Lost"
  | 0x09 => "Invalid Attribute Value"
  | 0x0C => "Object State Conflict"
  | 0x11 => "Reply Data Too Large"
  | 0x13 => "Not Enough Data"
  | 0x15 => "Too Much Data"
  | 0x1F => "Vendor Specific Error"
  | 0x20 => "Invalid Parameter"
  | _ => ""

/-- `extended_status_message` (omcon.cpp, lines 282–345): empty unless the
extended status is exactly two bytes, which are memcpy'd into a `uint16_t`
(little-endian host). -/
def extended_status_message (ext_status : List Nat) : String :=
  match ext_status with
  | [b0, b1] =>
    match b0 + 256 * b1 with
    | 0x8010 => "Downloading, starting up"
    | 0x8011 => "Tag memory error"
    | 0x0102 => "The read target is a variable I/O that cannot be read."
    | 0x2104 => "The read target is a variable I/O that cannot be read."
    | 0x0104 => "An address or size that exceeds the segment area is specified."
    | 0x1103 => "An address or size that exceeds the segment area is specified."
    | 0x8001 => "Internal Abnormality"
    | 0x8007 => "An inaccessible variable was specified"
    | 0x8029 => "An area that cannot be accessed in bulk was specified in SimpleDataSegment."
    | 0x8031 => "Internal error (memory allocation error)"
    | 0x8009 => "Segment Type Abnormal"
    | 0x800F => "Data length information in the request data is inconsistent"
    | 0x8017 => "Requesting more than one element for a single data item"
    | 0x8018 => "Requesting 0 elements or exceeding the range of array data"
    | 0x8021 => "A value other than 0 or 2 was specified in the AddInfo area."
    | 0x8022 => "The Data Type of the Request Service Data does not match the type of TAG information. The AddInfo Length of the Request Service Data is not 0."
    | 0x8023 => "Internal error (invalid command format)"
    | 0x8024 => "Internal error (invalid command length)"
    | 0x8025 => "Internal error (invalid parameter)"
    | 0x8027 => "Internal error (parameter error)"
    | 0x8028 => "A value outside the range was written to a variable with a subrange specified. An undefined value was written to an Enum type variable."
    | _ => ""
  | _ => ""

/-- `extended_status_to_int` (omcon.cpp, lines 373–392): a little-endian
reinterpretation for the widths 1, 2, 4, 8, otherwise `nullopt`. -/
def extended_status_to_int (data : List Nat) : Option Nat :=
  if data.length = 1 then some (fromLEBytes data)
  else if data.length = 2 then some (fromLEBytes data)
  else if data.length = 4 then some (fromLEBytes data)
  else if data.length = 8 then some (fromLEBytes data)
  else none

/-- fmt's `{:#x}` for an unsigned value: `0x` followed by lowercase hex. -/
def fmtHex (n : Nat) : String := "0x" ++ hexDigits n

/-- fmt's `{:#x}` applied to a `std::optional` (the formatter in
`fmt/std.h`, pulled in via `spdlog/fmt/std.h`): `optional(<value>)` with the
nested spec applied to the payload, and `none` for an empty optional. -/
def fmtOptHex : Option Nat → String
  | none => "none"
  | some v => "optional(" ++ fmtHex v ++ ")"

/-- The message of `RequestContext::request` when `general_status != 0`
(omcon.cpp, lines 411–435).  Note the code formats the whole
`std::optional<uint64_t> ext_status` — not a dereferenced value — so fmt
renders it as `optional(0x…)` (or `none`). -/
def cip_error_message (general_status : Nat) (extended_status : List Nat) : String :=
  let gen_message := general_status_message general_status
  let ext_message := extended_status_message extended_status
  let ext_status := extended_status_to_int extended_status
  let message := "Received error status in CIP response: " ++ fmtHex general_status
  let message := if extended_status.isEmpty then message
    else message ++ (", extended: " ++ fmtOptHex ext_status)
  if gen_message.isEmpty && ext_message.isEmpty then message
  else
    let message := message ++ " - "
    let message := if gen_message.isEmpty then message else message ++ gen_message
    if ext_message.isEmpty then message else message ++ (", " ++ ext_message)

/-- Counterexample to claim C7 as stated: for `general_status = 0x1F`,
`extended_status = [0x07, 0x80]` the built message is not of the exact form
`", extended: 0x<ext>"` — the code formats the whole `std::optional`, so the
extended clause reads `", extended: optional(0x8007)"`. -/
theorem c7_cip_error_message_counterexample :
    cip_error_message 0x1f [0x07, 0x80]
      ≠ "Received error status in CIP response: 0x1f, extended: 0x8007 - Vendor Specific Error, An inaccessible variable was specified"
    ∧ cip_error_message 0x1f [0x07, 0x80]
      = "Received error status in CIP response: 0x1f, extended: optional(0x8007) - Vendor Specific Error, An inaccessible variable was specified" := by
  refine ⟨by decide, by decide⟩

/-- Claim C7 (amended): the message is exactly
`"Received error status in CIP response: 0x<gen>"`, followed by
`", extended: optional(0x<ext>)"` (or `", extended: none"` when the extended
length is not 1, 2, 4 or 8) iff the extended status bytes are non-empty,
followed by `" - <gen_msg>[, <ext_msg>]"` iff at least one table lookup is
non-empty; for `0x1F`/`[0x07, 0x80]` it contains `"0x1f"`, `"0x8007"`,
`"Vendor Specific Error"` and `"An inaccessible variable was specified"`. -/
theorem c7_cip_error_message (gen : Nat) (ext : List Nat) :
    cip_error_message gen ext
      = "Received error status in CIP response: " ++ fmtHex gen
        ++ (if ext.isEmpty then ""
            else ", extended: " ++ fmtOptHex (extended_status_to_int ext))
        ++ (if (general_status_message gen).isEmpty
              && (extended_status_message ext).isEmpty then ""
            else " - " ++ general_status_message gen
              ++ (if (extended_status_message ext).isEmpty then ""
                  else ", " ++ extended_status_message ext))
    ∧ (∃ p q, cip_error_message 0x1f [0x07, 0x80] = p ++ "0x1f" ++ q)
    ∧ (∃ p q, cip_error_message 0x1f [0x07, 0x80] = p ++ "0x8007" ++ q)
    ∧ (∃ p q, cip_error_message 0x1f [0x07, 0x80] = p ++ "Vendor Specific Error" ++ q)
    ∧ (∃ p q, cip_error_message 0x1f [0x07, 0x80]
        = p ++ "An inaccessible variable was specified" ++ q) := by
  refine ⟨?_, ?_, ?_, ?_, ?_⟩
  · unfold cip_error_message
    have hg := String.isEmpty_iff (general_status_message gen)
    have he := String.isEmpty_iff (extended_status_message ext)
    by_cases hgen : general_status_message gen = "" <;>
      by_cases hextm : extended_status_message ext = "" <;>
        cases hext : ext.isEmpty <;>
          simp [hext, hg.mpr, hgen, hextm, String.append_assoc,
            Bool.eq_false_iff, fun h => hg.mp h, fun h => he.mp h,
            show (general_status_message gen).isEmpty = decide (general_status_message gen = "")
              from by rw [Bool.eq_iff_iff, hg]; simp,
            show (extended_status_message ext).isEmpty = decide (extended_status_message ext = "")
              from by rw [Bool.eq_iff_iff, he]; simp,
            show ("" : String).isEmpty = true from rfl]
  · exact ⟨"Received error status in CIP response: ",
      ", extended: optional(0x8007) - Vendor Specific Error, An inaccessible variable was specified",
      by decide⟩
  · exact ⟨"Received error status in CIP response: 0x1f, extended: optional(",
      ") - Vendor Specific Error, An inaccessible variable was specified",
      by decide⟩
  · exact ⟨"Received error status in CIP response: 0x1f, extended: optional(0x8007) - ",
      ", An inaccessible variable was specified", by decide⟩
  · exact ⟨"Received error status in CIP response: 0x1f, extended: optional(0x8007) - Vendor Specific Error, ",
      "", by decide⟩

end daq
